import Mathlib

/-!
Verification of the Tastly Google Maps review scraper against its design
specification.

The development shallowly embeds the engine implemented in `src/main.ts` and
`src/utils.ts`:

* the relative-time normalizer `parseRelativeDate` (utils.ts), with JavaScript
  `Date` field arithmetic modelled on the proleptic Gregorian calendar
  (ECMAScript `MakeDay`, days counted from the Unix epoch, instants in
  milliseconds — `toISOString` is a strictly monotone injection from instants,
  so instants stand in for the returned ISO strings);
* the per-card field extractor that runs inside `page.evaluate` (main.ts
  lines 313–430), with each DOM query result modelled as a field of a `Card`
  snapshot and every fallback chain translated verbatim;
* the accumulation / deduplication loop over extracted records (main.ts
  lines 434–456) together with the session that folds extraction passes;
* the scroll pagination loop with its stall counter and iteration ceiling
  (main.ts lines 259–296).

JavaScript strings are modelled as Lean `String` / `List Char`; `\s` in the
regexes is modelled as the ASCII whitespace characters (space, tab, LF, CR),
and `toLowerCase` as ASCII lowering, which is exact on the inputs the engine
matches against.
-/

/-- Time units recognized by the relative-date grammar in utils.ts. -/
inductive TimeUnit where
  | second
  | minute
  | hour
  | day
  | week
  | month
  | year
deriving DecidableEq

/-- Model of the `\s` character class of the regexes (ASCII fragment). -/
def isSpaceCh (c : Char) : Bool :=
  c = ' ' || c = '\t' || c = '\n' || c = '\r'

/-- Model of the `\d` character class. -/
def isDigitCh (c : Char) : Bool :=
  '0' ≤ c && c ≤ '9'

/-- Numeric value of a digit run, as computed by JavaScript `parseInt`. -/
def digitsToNat (ds : List Char) : Nat :=
  ds.foldl (fun a c => a * 10 + (c.toNat - '0'.toNat)) 0

/-- If `w` is a literal prefix of `s`, return the rest of `s`. -/
def dropWord : List Char → List Char → Option (List Char)
  | [], s => some s
  | _ :: _, [] => none
  | c :: w, c2 :: s => if c = c2 then dropWord w s else none

/-- The unit alternation `(second|minute|hour|day|week|month|year)` of
utils.ts, in the regex's alternation order. -/
def unitWords : List (List Char × TimeUnit) :=
  [("second".data, TimeUnit.second), ("minute".data, TimeUnit.minute),
   ("hour".data, TimeUnit.hour), ("day".data, TimeUnit.day),
   ("week".data, TimeUnit.week), ("month".data, TimeUnit.month),
   ("year".data, TimeUnit.year)]

/-- The `(day|week|month|year)` alternation used by the date-span fallback
test in main.ts. -/
def dateWords : List (List Char × TimeUnit) :=
  [("day".data, TimeUnit.day), ("week".data, TimeUnit.week),
   ("month".data, TimeUnit.month), ("year".data, TimeUnit.year)]

/-- Matches the regex tail `\s+ago` (unanchored: anything may follow). -/
def spaceThenAgo (r : List Char) : Bool :=
  let sp := r.takeWhile isSpaceCh
  let r2 := r.dropWhile isSpaceCh
  !sp.isEmpty && (dropWord "ago".data r2).isSome

/-- Matches `(units)s?\s+ago` at the head of `r`: the first alternative whose
literal matches is taken; the optional `s` is consumed greedily and given
back if `\s+ago` then fails (regex backtracking). -/
def matchUnitSuff (units : List (List Char × TimeUnit)) (r : List Char) :
    Option TimeUnit :=
  units.findSome? fun p =>
    match dropWord p.1 r with
    | none => none
    | some r3 =>
      match r3 with
      | 's' :: t =>
        if spaceThenAgo t then some p.2
        else if spaceThenAgo r3 then some p.2 else none
      | _ => if spaceThenAgo r3 then some p.2 else none

/-- Matches `(\d+)\s+(units)s?\s+ago` at the head of `s`, returning the
captured amount and unit.  A shorter (backtracked) digit capture would leave
a digit facing `\s+`, so the maximal digit run is the only candidate. -/
def matchPluralAt (units : List (List Char × TimeUnit)) (s : List Char) :
    Option (Nat × TimeUnit) :=
  let ds := s.takeWhile isDigitCh
  let r1 := s.dropWhile isDigitCh
  if ds.isEmpty then none
  else
    let sp := r1.takeWhile isSpaceCh
    let r2 := r1.dropWhile isSpaceCh
    if sp.isEmpty then none
    else
      match matchUnitSuff units r2 with
      | some u => some (digitsToNat ds, u)
      | none => none

/-- Unanchored, leftmost search for `(\d+)\s+(units)s?\s+ago`, as a
JavaScript regex `match` performs. -/
def findPluralW (units : List (List Char × TimeUnit)) :
    List Char → Option (Nat × TimeUnit)
  | [] => none
  | c :: rest =>
    match matchPluralAt units (c :: rest) with
    | some r => some r
    | none => findPluralW units rest

/-- Anchored match of `^a[n]?\s+(units)\s+ago$`.  The optional `n` is
deterministic: if it is present but not consumed, `\s+` would face `n`. -/
def matchSingleW (units : List (List Char × TimeUnit)) (s : List Char) :
    Option TimeUnit :=
  match s with
  | 'a' :: r0 =>
    let r1 := match r0 with
      | 'n' :: t => t
      | _ => r0
    let sp1 := r1.takeWhile isSpaceCh
    let r2 := r1.dropWhile isSpaceCh
    if sp1.isEmpty then none
    else
      match units.findSome? (fun p => (dropWord p.1 r2).map (fun r3 => (p.2, r3))) with
      | none => none
      | some (u, r3) =>
        let sp2 := r3.takeWhile isSpaceCh
        let r4 := r3.dropWhile isSpaceCh
        if sp2.isEmpty then none
        else
          match dropWord "ago".data r4 with
          | some [] => some u
          | _ => none
  | _ => none

/-- JavaScript `String.prototype.trim` on a character list (ASCII whitespace
fragment of the JS definition). -/
def jsTrim (s : List Char) : List Char :=
  ((s.dropWhile isSpaceCh).reverse.dropWhile isSpaceCh).reverse

/-- `text.toLowerCase().trim()` from utils.ts, producing the character list
the regexes are run against. -/
def prepText (s : String) : List Char :=
  jsTrim (s.data.map Char.toLower)

/-- JavaScript `trim` returning a `String` (used on element text contents). -/
def jsTrimStr (s : String) : String :=
  String.mk (jsTrim s.data)

/-- Civil-calendar fields of a JavaScript `Date`, as read back by
`getFullYear` / `getMonth` (0-based) / `getDate` (1-based), plus the
milliseconds elapsed within the day. -/
structure DateFields where
  year : Int
  month : Int
  day : Int
  msOfDay : Int
deriving DecidableEq

/-- Length of 0-based month `m` of year `y` in the proleptic Gregorian
calendar used by JavaScript `Date`. -/
def daysInMonthJS (y m : Int) : Int :=
  if m = 1 then
    (if (y % 4 = 0 ∧ y % 100 ≠ 0) ∨ y % 400 = 0 then 29 else 28)
  else if m = 3 ∨ m = 5 ∨ m = 8 ∨ m = 10 then 30
  else 31

/-- The fields describe an actual calendar instant. -/
def DateFields.Valid (f : DateFields) : Prop :=
  0 ≤ f.month ∧ f.month ≤ 11 ∧ 1 ≤ f.day ∧ f.day ≤ daysInMonthJS f.year f.month ∧
    0 ≤ f.msOfDay ∧ f.msOfDay < 86400000

instance (f : DateFields) : Decidable f.Valid :=
  inferInstanceAs (Decidable (0 ≤ f.month ∧ f.month ≤ 11 ∧ 1 ≤ f.day ∧
    f.day ≤ daysInMonthJS f.year f.month ∧ 0 ≤ f.msOfDay ∧ f.msOfDay < 86400000))

/-- Days from the Unix epoch to the first day of 0-based month `mn` of year
`y` (proleptic Gregorian).  `y + (mn - 2).ediv 12` shifts to a March-based
year exactly when `mn ≤ 1`, matching the standard civil-from-days algorithm
that ECMAScript date arithmetic realizes. -/
def daysFromCivil0 (y mn : Int) : Int :=
  let yy := y + (mn - 2) / 12
  let era := yy / 400
  let yoe := yy - era * 400
  let doy := (153 * ((mn + 10) % 12) + 2) / 5
  era * 146097 + yoe * 365 + yoe / 4 - yoe / 100 + doy - 719468

/-- ECMAScript `MakeDay(y, m, d)`: the month may lie outside `[0, 11]` and
the day outside the month, both normalizing arithmetically.  Division and
remainder on `Int` are Euclidean, which for the positive divisor 12 is the
floor division ECMAScript prescribes. -/
def makeDay (y m d : Int) : Int :=
  daysFromCivil0 (y + m / 12) (m % 12) + (d - 1)

/-- The instant (milliseconds since the Unix epoch) denoted by the fields. -/
def DateFields.instant (f : DateFields) : Int :=
  makeDay f.year f.month f.day * 86400000 + f.msOfDay

/-- One arm of the `switch` in `parseRelativeDate`: subtract `amount` units
from `now` the way the corresponding `Date` setter does.  The sub-day setters
(`setSeconds` etc.) re-derive the instant from unchanged remaining fields, so
they are exact millisecond subtraction; `setDate` / `setMonth` /
`setFullYear` go through `MakeDay` on the updated field. -/
def applySub (u : TimeUnit) (amount : Nat) (f : DateFields) : Int :=
  match u with
  | TimeUnit.second => f.instant - amount * 1000
  | TimeUnit.minute => f.instant - amount * 60000
  | TimeUnit.hour => f.instant - amount * 3600000
  | TimeUnit.day => makeDay f.year f.month (f.day - amount) * 86400000 + f.msOfDay
  | TimeUnit.week => makeDay f.year f.month (f.day - (amount : Int) * 7) * 86400000 + f.msOfDay
  | TimeUnit.month => makeDay f.year (f.month - amount) f.day * 86400000 + f.msOfDay
  | TimeUnit.year => makeDay (f.year - amount) f.month f.day * 86400000 + f.msOfDay

/-- `parseRelativeDate` from utils.ts.  The wall clock `new Date()` is the
explicit parameter `now`; the returned ISO string is represented by its
instant.  Unmatched text falls through both regexes to `now` itself. -/
def parseRelativeDate (text : String) (now : DateFields) : Int :=
  let lower := prepText text
  match findPluralW unitWords lower with
  | some au => applySub au.2 au.1 now
  | none =>
    match matchSingleW unitWords lower with
    | some u => applySub u 1 now
    | none => now.instant

/-- Sample reference instant 2024-04-30T00:00:00Z, used by the concrete
witnesses below (its month subtraction even overflows: Feb 30 → Mar 1). -/
def dfSample : DateFields := ⟨2024, 3, 30, 0⟩

/-- First digit run in a string, i.e. the capture of an unanchored
JavaScript `match(/(\d+)/)`. -/
def firstDigitRun : List Char → Option (List Char)
  | [] => none
  | c :: rest =>
    if isDigitCh c then some ((c :: rest).takeWhile isDigitCh)
    else firstDigitRun rest

/-- `parseInt(m[1])` applied to the first digit run found in `s`. -/
def parseIntFirst (s : String) : Option Nat :=
  (firstDigitRun s.data).map digitsToNat

/-- Substring containment, as JavaScript `String.prototype.includes`. -/
def containsSub (needle : List Char) : List Char → Bool
  | [] => needle.isEmpty
  | c :: rest => (dropWord needle (c :: rest)).isSome || containsSub needle rest

/-- Snapshot of one review card's DOM state: each field holds the outcome of
the corresponding query the extractor in main.ts performs, `none` standing
for a query that matches no element.

* `dataReviewId` — the `data-review-id` attribute;
* `starAriaLabel` — aria-label of the first rating-indicator element
  matched by `[role="img"][aria-label*="star" i]`;
* `nameElText` — text of the dedicated author-name element chain
  (`div.d4r55` / contributor-link div / review-button div);
* `firstLinkText` — text of the first `a` element in the card;
* `dateElText` — text of `span.rsqaWe`;
* `textElText` — text of `span.wiI7pd` or `div.MyEned span`;
* `ownerResponse` — the `div.CDe7pd` sub-container, when present;
* `likesElText` — text of `span.pkWtMe`;
* `spanTexts` — texts of all `span` descendants in document order (the list
  the date fallback, body-text fallback and reviewer-info scans walk; the
  reviewer-info selector `div.RfnDt span, span` matches the same node list
  since every `div.RfnDt span` is itself a `span`). -/
structure OwnerResp where
  respText : Option String
  respDate : Option String
deriving DecidableEq

structure Card where
  dataReviewId : Option String
  starAriaLabel : Option String
  nameElText : Option String
  firstLinkText : Option String
  dateElText : Option String
  textElText : Option String
  ownerResponse : Option OwnerResp
  likesElText : Option String
  spanTexts : List String
deriving DecidableEq

/-- Raw record produced by the in-page extractor (the object pushed onto
`reviews` inside `page.evaluate`). -/
structure PageReview where
  reviewId : String
  name : String
  stars : Nat
  dateText : String
  text : Option String
  responseFromOwnerText : Option String
  responseFromOwnerDate : Option String
  likesCount : Nat
  reviewerNumberOfReviews : Option Nat
  isLocalGuide : Bool
deriving DecidableEq

/-- The synthetic identity `` `g-${idx}-${Date.now()}` `` used when the card
carries no usable `data-review-id`. -/
def syntheticId (idx : Nat) (nowMs : Int) : String :=
  s!"g-{idx}-{nowMs}"

/-- Star-rating resolution (main.ts lines 322–328): parse the first integer
out of the rating indicator's aria-label; no indicator (or no digits) leaves
the initial 0. -/
def resolveStars (starAriaLabel : Option String) : Nat :=
  match starAriaLabel with
  | none => 0
  | some lbl =>
    match parseIntFirst lbl with
    | some n => n
    | none => 0

/-- Author-name fallback chain (main.ts lines 330–348): the dedicated
element's trimmed text when its length is in (0, 80); else the first link's
trimmed text when its length is in (1, 60); else the sentinel. -/
def resolveName (nameElText firstLinkText : Option String) : String :=
  let name0 :=
    match nameElText with
    | none => "Anonymous"
    | some t =>
      let n := jsTrimStr t
      if 0 < n.length ∧ n.length < 80 then n else "Anonymous"
  if name0 = "Anonymous" then
    match firstLinkText with
    | none => name0
    | some t =>
      let n := jsTrimStr t
      if 1 < n.length ∧ n.length < 60 then n else name0
  else name0

/-- The `/\d+\s+(day|week|month|year)s?\s+ago/i` or
`/^a[n]?\s+(day|week|month|year)\s+ago$/i` test applied to a span's text by
the date fallback (case-insensitivity modelled by lowering first). -/
def spanLooksLikeDate (t : String) : Bool :=
  let l := t.data.map Char.toLower
  (findPluralW dateWords l).isSome || (matchSingleW dateWords l).isSome

/-- First span whose trimmed text looks like a relative date (main.ts
lines 356–365); the empty string when none does. -/
def findFirstDateSpan : List String → String
  | [] => ""
  | s :: rest =>
    let t := jsTrimStr s
    if spanLooksLikeDate t then t else findFirstDateSpan rest

/-- Relative-date text resolution (main.ts lines 350–365). -/
def resolveDateText (dateElText : Option String) (spans : List String) : String :=
  let d0 :=
    match dateElText with
    | some t => jsTrimStr t
    | none => ""
  if d0 = "" then findFirstDateSpan spans else d0

/-- Longest-span fallback for the review body (main.ts lines 374–385): the
first strictly-longest trimmed span text exceeding 30 characters. -/
def longestSpan (spans : List String) : Option String :=
  (spans.foldl
    (fun acc s =>
      let t := jsTrimStr s
      if t.length > acc.2 ∧ t.length > 30 then (some t, t.length) else acc)
    ((none : Option String), 0)).1

/-- Review body resolution (main.ts lines 367–385). -/
def resolveBody (textElText : Option String) (spans : List String) : Option String :=
  let t0 : Option String :=
    match textElText with
    | some t =>
      let s := jsTrimStr t
      if 0 < s.length then some s else none
    | none => none
  match t0 with
  | some t => some t
  | none => longestSpan spans

/-- Owner-response resolution (main.ts lines 387–396), scoped to the
response sub-container; `trim() || null` maps whitespace-only text to null. -/
def resolveOwner (o : Option OwnerResp) : Option String × Option String :=
  match o with
  | none => (none, none)
  | some r =>
    (match r.respText with
     | some t => let s := jsTrimStr t; if s = "" then none else some s
     | none => none,
     match r.respDate with
     | some t => let s := jsTrimStr t; if s = "" then none else some s
     | none => none)

/-- Likes counter resolution (main.ts lines 398–404). -/
def resolveLikes (likesElText : Option String) : Nat :=
  match likesElText with
  | none => 0
  | some t =>
    match parseIntFirst t with
    | some n => n
    | none => 0

/-- One position of the unanchored `/(\d+)\s+review/i` search, over an
already-lowercased character list. -/
def matchCountAt (s : List Char) : Option Nat :=
  let ds := s.takeWhile isDigitCh
  let r1 := s.dropWhile isDigitCh
  if ds.isEmpty then none
  else
    let sp := r1.takeWhile isSpaceCh
    let r2 := r1.dropWhile isSpaceCh
    if sp.isEmpty then none
    else if (dropWord "review".data r2).isSome then some (digitsToNat ds)
    else none

/-- Leftmost `/(\d+)\s+review/i` match over a lowered character list. -/
def findCountAux : List Char → Option Nat
  | [] => none
  | c :: rest =>
    match matchCountAt (c :: rest) with
    | some n => some n
    | none => findCountAux rest

/-- `t.match(/(\d+)\s+review/i)`, capture parsed by `parseInt`. -/
def findCountReview (t : String) : Option Nat :=
  findCountAux (t.data.map Char.toLower)

/-- Reviewer-info scan (main.ts lines 406–415): walks every span's trimmed
text; `includes("Local Guide")` latches the flag, and each `/(\d+)\s+review/i`
match overwrites the review count (the last matching span wins). -/
def resolveReviewerInfo (spans : List String) : Option Nat × Bool :=
  spans.foldl
    (fun acc s =>
      let t := jsTrimStr s
      let guide := acc.2 || containsSub "Local Guide".data t.data
      let cnt :=
        match findCountReview t with
        | some n => some n
        | none => acc.1
      (cnt, guide))
    ((none : Option Nat), false)

/-- The per-card extractor of main.ts (lines 317–427).  `idx` is the card's
position in the query result and `nowMs` the wall clock `Date.now()`; both
feed only the synthetic identity.  A record is pushed exactly when the
resolved star rating lies in [1, 5]. -/
def extractCard (idx : Nat) (nowMs : Int) (card : Card) : Option PageReview :=
  let reviewId :=
    match card.dataReviewId with
    | some s => if s = "" then syntheticId idx nowMs else s
    | none => syntheticId idx nowMs
  let stars := resolveStars card.starAriaLabel
  let own := resolveOwner card.ownerResponse
  let info := resolveReviewerInfo card.spanTexts
  if 1 ≤ stars ∧ stars ≤ 5 then
    some
      { reviewId := reviewId
        name := resolveName card.nameElText card.firstLinkText
        stars := stars
        dateText := resolveDateText card.dateElText card.spanTexts
        text := resolveBody card.textElText card.spanTexts
        responseFromOwnerText := own.1
        responseFromOwnerDate := own.2
        likesCount := resolveLikes card.likesElText
        reviewerNumberOfReviews := info.1
        isLocalGuide := info.2 }
  else none

/-- Projection of a raw record onto every field except the identity. -/
def PageReview.sansId (p : PageReview) :
    String × Nat × String × Option String × Option String × Option String ×
      Nat × Option Nat × Bool :=
  (p.name, p.stars, p.dateText, p.text, p.responseFromOwnerText,
   p.responseFromOwnerDate, p.likesCount, p.reviewerNumberOfReviews, p.isLocalGuide)

/-- A card with a rating indicator, an author link "Jane D.", a likes
counter, and no `data-review-id` attribute. -/
def cardJane : Card :=
  { dataReviewId := none
    starAriaLabel := some "5 stars"
    nameElText := none
    firstLinkText := some "Jane D."
    dateElText := none
    textElText := none
    ownerResponse := none
    likesElText := some "12"
    spanTexts := [] }

/-- A card with no rating-indicator element at all. -/
def cardNoStar : Card :=
  { dataReviewId := some "r-7"
    starAriaLabel := none
    nameElText := some "Ann"
    firstLinkText := none
    dateElText := none
    textElText := none
    ownerResponse := none
    likesElText := none
    spanTexts := [] }

/-- A card with a stable `data-review-id` attribute. -/
def cardWithId : Card :=
  { dataReviewId := some "r1"
    starAriaLabel := some "4 stars"
    nameElText := some "Bob"
    firstLinkText := none
    dateElText := none
    textElText := none
    ownerResponse := none
    likesElText := none
    spanTexts := [] }

/-- A first-link text of exactly 60 characters. -/
def linkText60 : String :=
  "abcdefghijabcdefghijabcdefghijabcdefghijabcdefghijabcdefghij"

/-- A card with no dedicated author-name element whose first link text has
exactly 60 characters. -/
def cardLink60 : Card :=
  { dataReviewId := some "r-60"
    starAriaLabel := some "3 stars"
    nameElText := none
    firstLinkText := some linkText60
    dateElText := none
    textElText := none
    ownerResponse := none
    likesElText := none
    spanTexts := [] }

/-- The output record pushed to the dataset (the `GoogleReview` shape of
types.ts), with `publishedAtDate` as an instant. -/
structure GoogleReview where
  reviewId : String
  name : String
  stars : Nat
  publishedAtDate : Int
  text : Option String
  reviewUrl : Option String
  responseFromOwnerText : Option String
  responseFromOwnerDate : Option String
  likesCount : Nat
  reviewDetailedRating : Option (List (String × Nat))
  reviewerNumberOfReviews : Option Nat
  isLocalGuide : Bool
  language : String
  reviewOrigin : String
deriving DecidableEq

/-- The per-record normalization performed by `collectedReviews.push`
(main.ts lines 440–455): JavaScript truthiness maps empty strings to the
defaults, `reviewUrl` and `reviewDetailedRating` are constant null, and
`language` / `reviewOrigin` are constant strings.  `now` is the wall clock
at which `parseRelativeDate` runs. -/
def toGoogleReview (now : DateFields) (rev : PageReview) : GoogleReview :=
  { reviewId := rev.reviewId
    name := if rev.name = "" then "Anonymous" else rev.name
    stars := rev.stars
    publishedAtDate := parseRelativeDate rev.dateText now
    text :=
      match rev.text with
      | some t => if t = "" then none else some t
      | none => none
    reviewUrl := none
    responseFromOwnerText :=
      match rev.responseFromOwnerText with
      | some t => if t = "" then none else some t
      | none => none
    responseFromOwnerDate :=
      match rev.responseFromOwnerDate with
      | some t => if t = "" then none else some t
      | none => none
    likesCount := rev.likesCount
    reviewDetailedRating := none
    reviewerNumberOfReviews := rev.reviewerNumberOfReviews
    isLocalGuide := rev.isLocalGuide
    language := "en"
    reviewOrigin := "Google" }

/-- Session-scoped accumulator state: the ordered collection and the set of
seen identities (`collectedReviews` and `seenIds` in main.ts). -/
structure AccState where
  collected : List GoogleReview
  seen : List String
deriving DecidableEq

/-- The accumulation loop over one extraction pass (main.ts lines 434–456):
stop the pass once the cap is reached, skip records whose identity was
already seen, otherwise record the identity and append the normalized
record. -/
def offerAll (maxItems : Nat) (now : DateFields) :
    List PageReview → AccState → AccState
  | [], st => st
  | rev :: rest, st =>
    if maxItems ≤ st.collected.length then st
    else if rev.reviewId ∈ st.seen then offerAll maxItems now rest st
    else
      offerAll maxItems now rest
        { collected := st.collected ++ [toGoogleReview now rev],
          seen := rev.reviewId :: st.seen }

/-- An extraction session over one target URL: fold every extraction pass
into the initially empty accumulator.  (The request handler's entry guard
`if (collectedReviews.length >= maxItems) return` is subsumed by the
per-record cap check.) -/
def runSession (maxItems : Nat) (now : DateFields)
    (passes : List (List PageReview)) : AccState :=
  passes.foldl (fun st pass => offerAll maxItems now pass st)
    { collected := [], seen := [] }

/-- Accumulator invariant: collected identities are duplicate-free and all
of them are registered in the seen set. -/
def AccInv (st : AccState) : Prop :=
  (st.collected.map GoogleReview.reviewId).Nodup ∧
    ∀ r ∈ st.collected, r.reviewId ∈ st.seen

/-- Two distinct raw records used by the concrete witnesses. -/
def prSample : PageReview :=
  { reviewId := "id-a", name := "Jane D.", stars := 5, dateText := "",
    text := none, responseFromOwnerText := none, responseFromOwnerDate := none,
    likesCount := 12, reviewerNumberOfReviews := none, isLocalGuide := false }

def prSample2 : PageReview :=
  { reviewId := "id-b", name := "Bob", stars := 4, dateText := "",
    text := none, responseFromOwnerText := none, responseFromOwnerDate := none,
    likesCount := 0, reviewerNumberOfReviews := some 3, isLocalGuide := true }

/-- Why the scroll loop stopped (the three exits of the loop in main.ts
lines 263–296: the `currentCount >= maxItems` break, the stall break, and
falling off the `for` bound). -/
inductive StopReason where
  | capReached
  | noProgress
  | iterationLimit
deriving DecidableEq

/-- Outcome of the pagination loop: the stop reason, how many measurement
cycles ran, how many scroll actions were issued, and the last measured
count. -/
structure ScrollResult where
  reason : StopReason
  cycles : Nat
  scrolls : Nat
  lastCount : Nat
deriving DecidableEq

/-- The scroll loop of main.ts (lines 259–296).  `counts j` is the card
count the document exposes at measurement cycle `j` (the document's
behaviour abstracted as a function of the cycle index); `fuel` is the number
of remaining loop iterations, `attempt` the current index,
`lastCount` / `noNew` the `lastReviewCount` / `noNewReviewsCount` variables.
A completed iteration ends in a scroll + settle wait; the two breaks happen
before scrolling. -/
def scrollLoop (counts : Nat → Nat) (maxItems : Nat) :
    Nat → Nat → Nat → Nat → ScrollResult
  | 0, attempt, lastCount, _ =>
    { reason := StopReason.iterationLimit, cycles := attempt, scrolls := attempt,
      lastCount := lastCount }
  | fuel + 1, attempt, lastCount, noNew =>
    let c := counts attempt
    if maxItems ≤ c then
      { reason := StopReason.capReached, cycles := attempt + 1, scrolls := attempt,
        lastCount := c }
    else if c = lastCount then
      if 2 ≤ noNew then
        { reason := StopReason.noProgress, cycles := attempt + 1, scrolls := attempt,
          lastCount := c }
      else scrollLoop counts maxItems fuel (attempt + 1) c (noNew + 1)
    else scrollLoop counts maxItems fuel (attempt + 1) c 0

/-- `Math.ceil(maxItems / 10) + 5` (main.ts line 259): for natural
`maxItems` the ceiling is `(maxItems + 9) / 10`. -/
def maxScrollAttempts (maxItems : Nat) : Nat :=
  (maxItems + 9) / 10 + 5

/-- The pagination controller for one page: run the scroll loop from the
initial state `lastReviewCount = 0`, `noNewReviewsCount = 0`. -/
def paginate (counts : Nat → Nat) (maxItems : Nat) : ScrollResult :=
  scrollLoop counts maxItems (maxScrollAttempts maxItems) 0 0 0

/-- The request handler once the page is loaded: run the pagination loop,
then — whatever the stop reason — extract the visible cards and fold them
into the accumulator (main.ts lines 259–456: no branch skips extraction). -/
def runHandlerPass (counts : Nat → Nat) (maxItems : Nat) (now : DateFields)
    (pageReviews : List PageReview) (st : AccState) : ScrollResult × AccState :=
  (paginate counts maxItems, offerAll maxItems now pageReviews st)

/-- Going back two calendar months from the first of any month lands at least
59 days earlier: the two skipped consecutive months sum to at least
31 + 28 days.  Proved directly from the civil-day formula. -/
theorem monthsGap (y m : Int) :
    daysFromCivil0 (y + (m - 2) / 12) ((m - 2) % 12) + 59 ≤ daysFromCivil0 y m := by
  simp only [daysFromCivil0]
  omega

example : findPluralW unitWords (prepText "2 months ago") = some (2, TimeUnit.month) := by decide
example : findPluralW unitWords (prepText "2 weeks ago") = some (2, TimeUnit.week) := by decide
example : matchSingleW unitWords (prepText "an hour ago") = some TimeUnit.hour := by decide
example : findPluralW unitWords (prepText "gibberish") = none := by decide
example : matchSingleW unitWords (prepText "gibberish") = none := by decide
example : daysFromCivil0 1970 0 = 0 := by decide
example : daysFromCivil0 2000 2 = 11017 := by decide

/-- Claim C4: for every reference instant, the relative-time normalizer maps
the empty string to the reference instant itself, maps "gibberish" to the
reference instant, and more generally maps any text matched by neither the
plural grammar nor the article grammar to the reference instant — a defined
fallback, never an error. -/
theorem relnorm_fallback_to_now (now : DateFields) :
    parseRelativeDate "" now = now.instant ∧
    parseRelativeDate "gibberish" now = now.instant ∧
    ∀ text : String,
      findPluralW unitWords (prepText text) = none →
      matchSingleW unitWords (prepText text) = none →
      parseRelativeDate text now = now.instant := by
  refine ⟨rfl, rfl, fun text h1 h2 => ?_⟩
  simp only [parseRelativeDate, h1, h2]

/-- Witness for `relnorm_fallback_to_now` at a concrete reference instant and
a concrete unparseable text. -/
theorem relnorm_fallback_to_now_witness :
    parseRelativeDate "great tacos!" dfSample = dfSample.instant :=
  (relnorm_fallback_to_now dfSample).2.2 "great tacos!" (by decide) (by decide)

/-- Claim C8: for every valid reference instant, normalizing "2 months ago"
yields an instant strictly earlier than normalizing "2 weeks ago", although
month subtraction is calendar-aware and week subtraction is a fixed 14 days. -/
theorem relnorm_two_months_before_two_weeks (f : DateFields) (hf : f.Valid) :
    parseRelativeDate "2 months ago" f < parseRelativeDate "2 weeks ago" f := by
  obtain ⟨hml, hmu, -, -, -, -⟩ := hf
  show applySub TimeUnit.month 2 f < applySub TimeUnit.week 2 f
  simp only [applySub, makeDay, DateFields.instant]
  push_cast
  have hgap := monthsGap f.year f.month
  have h0 : f.year + f.month / 12 = f.year := by omega
  have h1 : f.month % 12 = f.month := by omega
  rw [h0, h1]
  omega

/-- Witness for `relnorm_two_months_before_two_weeks` at the concrete
instant 2024-04-30T00:00:00Z. -/
theorem relnorm_two_months_before_two_weeks_witness :
    parseRelativeDate "2 months ago" dfSample < parseRelativeDate "2 weeks ago" dfSample :=
  relnorm_two_months_before_two_weeks dfSample (by decide)

example : extractCard 0 7 cardJane =
    some { reviewId := "g-0-7", name := "Jane D.", stars := 5, dateText := "",
           text := none, responseFromOwnerText := none, responseFromOwnerDate := none,
           likesCount := 12, reviewerNumberOfReviews := none, isLocalGuide := false } := by
  decide

/-- Claim C1: a card yields a record exactly when the resolved star rating is
an integer in [1, 5]; a card with no rating indicator yields no record; and
every emitted record carries the resolved rating, hence a rating in
{1, 2, 3, 4, 5}.  No other field influences emission — the gate condition
mentions only the resolved rating. -/
theorem rating_gate (idx : Nat) (nowMs : Int) (card : Card) :
    ((extractCard idx nowMs card).isSome ↔
      1 ≤ resolveStars card.starAriaLabel ∧ resolveStars card.starAriaLabel ≤ 5) ∧
    (card.starAriaLabel = none → extractCard idx nowMs card = none) ∧
    ∀ pr : PageReview, extractCard idx nowMs card = some pr →
      pr.stars = resolveStars card.starAriaLabel ∧ 1 ≤ pr.stars ∧ pr.stars ≤ 5 := by
  by_cases h : 1 ≤ resolveStars card.starAriaLabel ∧ resolveStars card.starAriaLabel ≤ 5
  · refine ⟨by simp [extractCard, h], fun hn => ?_, fun pr hpr => ?_⟩
    · rw [hn] at h
      simp [resolveStars] at h
    · simp only [extractCard, if_pos h] at hpr
      obtain ⟨rfl⟩ := hpr
      exact ⟨rfl, h⟩
  · refine ⟨by simp [extractCard, h], fun hn => by simp [extractCard, h], fun pr hpr => ?_⟩
    simp [extractCard, h] at hpr

/-- Witness for `rating_gate`: the ratingless card is dropped and the
5-star card is kept. -/
theorem rating_gate_witness :
    extractCard 0 0 cardNoStar = none ∧ (extractCard 0 7 cardJane).isSome :=
  ⟨(rating_gate 0 0 cardNoStar).2.1 rfl, ((rating_gate 0 7 cardJane).1).mpr (by decide)⟩

/-- Claim C7 counterexample: the extractor is not a pure function of the
card snapshot — on a card with no `data-review-id` attribute, two runs at
wall-clock instants 0 and 1 produce records with different identities. -/
theorem extractor_not_clock_independent :
    extractCard 0 0 cardJane ≠ extractCard 0 1 cardJane := by decide

/-- Claim C7 amended: every field except the identity is a pure function of
the card snapshot, and when the card carries a non-empty `data-review-id`
the whole record — identity included — is independent of the extraction
position and the wall clock. -/
theorem extractor_pure_modulo_id (i j : Nat) (t u : Int) (card : Card) :
    (extractCard i t card).map PageReview.sansId
      = (extractCard j u card).map PageReview.sansId ∧
    (∀ s, card.dataReviewId = some s → s ≠ "" →
      extractCard i t card = extractCard j u card) := by
  constructor
  · by_cases h : 1 ≤ resolveStars card.starAriaLabel ∧ resolveStars card.starAriaLabel ≤ 5 <;>
      simp [extractCard, h, PageReview.sansId]
  · intro s hs hne
    simp only [extractCard, hs, if_neg hne]

/-- Witness for `extractor_pure_modulo_id`: with the stable id "r1" the
record is the same at positions 0 and 3, instants 0 and 99. -/
theorem extractor_pure_modulo_id_witness :
    extractCard 0 0 cardWithId = extractCard 3 99 cardWithId :=
  (extractor_pure_modulo_id 0 3 0 99 cardWithId).2 "r1" rfl (by decide)

example : linkText60.length = 60 := by decide

/-- Claim C9 counterexample: a card with no dedicated author-name element
and a first-link text of exactly 60 characters — a length between 2 and 60
— nevertheless resolves to the sentinel, because the code requires
`n.length < 60` strictly: the claimed "if and only if ... between 2 and 60"
fails at 60. -/
theorem name_sixty_not_used :
    (extractCard 0 0 cardLink60).map PageReview.name = some "Anonymous" ∧
    jsTrimStr linkText60 = linkText60 ∧ linkText60.length = 60 := by
  decide

/-- Claim C9 amended: on a card with no dedicated author-name element, the
first hyperlink's trimmed text is used as the author name if and only if its
length is at least 2 and strictly less than 60; when no link qualifies
(including a link text of length outside [2, 60)), the name is the sentinel
"Anonymous". -/
theorem name_fallback (card : Card) (hname : card.nameElText = none) :
    (card.firstLinkText = none →
      resolveName card.nameElText card.firstLinkText = "Anonymous") ∧
    ∀ s, card.firstLinkText = some s →
      (resolveName card.nameElText card.firstLinkText = jsTrimStr s ↔
        2 ≤ (jsTrimStr s).length ∧ (jsTrimStr s).length < 60) ∧
      (¬(2 ≤ (jsTrimStr s).length ∧ (jsTrimStr s).length < 60) →
        resolveName card.nameElText card.firstLinkText = "Anonymous") := by
  constructor
  · intro hl
    simp [resolveName, hname, hl]
  · intro s hs
    by_cases hr : 1 < (jsTrimStr s).length ∧ (jsTrimStr s).length < 60
    · refine ⟨⟨fun _ => hr, fun _ => ?_⟩, fun habs => absurd hr habs⟩
      simp [resolveName, hname, hs, hr]
    · have hres : resolveName card.nameElText card.firstLinkText = "Anonymous" := by
        simp [resolveName, hname, hs, hr]
      refine ⟨⟨fun heq => ?_, fun hrange => absurd hrange hr⟩, fun _ => hres⟩
      rw [hres] at heq
      have h9 : (jsTrimStr s).length = 9 := by rw [← heq]; decide
      omega

/-- Witness for `name_fallback`: "Jane D." (7 characters) is taken from the
first link of a card without a dedicated name element. -/
theorem name_fallback_witness :
    resolveName cardJane.nameElText cardJane.firstLinkText = jsTrimStr "Jane D." :=
  (((name_fallback cardJane rfl).2 "Jane D." rfl).1).mpr (by decide)

/-- Once the collection has reached the cap, an extraction pass leaves the
state untouched. -/
theorem offerAll_capped (maxItems : Nat) (now : DateFields)
    (revs : List PageReview) (st : AccState)
    (h : maxItems ≤ st.collected.length) :
    offerAll maxItems now revs st = st := by
  cases revs with
  | nil => rfl
  | cons rev rest => simp only [offerAll, if_pos h]

/-- The accumulation loop never grows the collection beyond the cap. -/
theorem offerAll_length_le (maxItems : Nat) (now : DateFields)
    (revs : List PageReview) :
    ∀ st : AccState, st.collected.length ≤ maxItems →
      (offerAll maxItems now revs st).collected.length ≤ maxItems := by
  induction revs with
  | nil => exact fun st h => h
  | cons rev rest ih =>
    intro st h
    simp only [offerAll]
    by_cases hcap : maxItems ≤ st.collected.length
    · rw [if_pos hcap]; exact h
    · rw [if_neg hcap]
      by_cases hdup : rev.reviewId ∈ st.seen
      · rw [if_pos hdup]; exact ih st h
      · rw [if_neg hdup]
        refine ih _ ?_
        simp only [List.length_append, List.length_cons, List.length_nil]
        omega

/-- One extraction pass preserves the accumulator invariant. -/
theorem offerAll_inv (maxItems : Nat) (now : DateFields)
    (revs : List PageReview) :
    ∀ st : AccState, AccInv st → AccInv (offerAll maxItems now revs st) := by
  induction revs with
  | nil => exact fun st h => h
  | cons rev rest ih =>
    intro st h
    simp only [offerAll]
    by_cases hcap : maxItems ≤ st.collected.length
    · rw [if_pos hcap]; exact h
    · rw [if_neg hcap]
      by_cases hdup : rev.reviewId ∈ st.seen
      · rw [if_pos hdup]; exact ih st h
      · rw [if_neg hdup]
        obtain ⟨hnd, hsub⟩ := h
        refine ih _ ⟨?_, ?_⟩
        · simp only [List.map_append, List.map_cons, List.map_nil]
          rw [List.nodup_append]
          refine ⟨hnd, List.nodup_singleton _, fun a ha hb => ?_⟩
          simp only [List.mem_singleton] at hb
          rcases List.mem_map.mp ha with ⟨r, hrmem, hrid⟩
          have : rev.reviewId ∈ st.seen := by
            have h1 := hsub r hrmem
            rw [hrid, hb] at h1
            exact h1
          exact hdup this
        · intro r hr
          rcases List.mem_append.mp hr with hr | hr
          · exact List.mem_cons_of_mem _ (hsub r hr)
          · simp only [List.mem_singleton] at hr
            subst hr
            exact List.mem_cons_self _ _

/-- A whole session preserves any property established by `offerAll`. -/
theorem runSession_inv (maxItems : Nat) (now : DateFields)
    (passes : List (List PageReview)) :
    AccInv (runSession maxItems now passes) ∧
      (runSession maxItems now passes).collected.length ≤ maxItems := by
  suffices h : ∀ st : AccState, AccInv st → st.collected.length ≤ maxItems →
      AccInv (passes.foldl (fun st pass => offerAll maxItems now pass st) st) ∧
        (passes.foldl (fun st pass => offerAll maxItems now pass st) st).collected.length
          ≤ maxItems by
    exact h ⟨[], []⟩ ⟨List.nodup_nil, by simp⟩ (by simp)
  induction passes with
  | nil => exact fun st h hl => ⟨h, hl⟩
  | cons p ps ih =>
    intro st h hl
    exact ih _ (offerAll_inv maxItems now p st h) (offerAll_length_le maxItems now p st hl)

/-- Claim C2: for every positive cap and every sequence of extraction
passes, the accumulated collection never exceeds the cap, and once the
collection size equals the cap every further offered record is rejected,
whatever its identity. -/
theorem cap_never_exceeded (maxItems : Nat) (now : DateFields)
    (_hpos : 0 < maxItems) :
    (∀ passes, (runSession maxItems now passes).collected.length ≤ maxItems) ∧
    (∀ (st : AccState) (revs : List PageReview), st.collected.length = maxItems →
      offerAll maxItems now revs st = st) := by
  refine ⟨fun passes => (runSession_inv maxItems now passes).2,
    fun st revs h => offerAll_capped maxItems now revs st (le_of_eq h.symm)⟩

/-- Witness for `cap_never_exceeded`: cap 1 with a two-record pass. -/
theorem cap_never_exceeded_witness :
    (runSession 1 dfSample [[prSample, prSample2]]).collected.length ≤ 1 :=
  (cap_never_exceeded 1 dfSample (by decide)).1 [[prSample, prSample2]]

/-- Claim C3: across every sequence of extraction passes in one session, no
two accumulated records share an identity, and a record whose identity is
already in the seen set is skipped by the accumulation loop. -/
theorem dedup_by_identity (maxItems : Nat) (now : DateFields) :
    (∀ passes,
      ((runSession maxItems now passes).collected.map GoogleReview.reviewId).Nodup) ∧
    (∀ (st : AccState) (rev : PageReview) (rest : List PageReview),
      rev.reviewId ∈ st.seen →
      offerAll maxItems now (rev :: rest) st = offerAll maxItems now rest st) := by
  refine ⟨fun passes => (runSession_inv maxItems now passes).1.1,
    fun st rev rest hdup => ?_⟩
  simp only [offerAll]
  by_cases hcap : maxItems ≤ st.collected.length
  · rw [if_pos hcap]
    exact (offerAll_capped maxItems now rest st hcap).symm
  · rw [if_neg hcap, if_pos hdup]

/-- Witness for `dedup_by_identity`: a state that has already seen "id-a"
skips a second record carrying "id-a". -/
theorem dedup_by_identity_witness :
    offerAll 5 dfSample [prSample] ⟨[toGoogleReview dfSample prSample], ["id-a"]⟩
      = offerAll 5 dfSample [] ⟨[toGoogleReview dfSample prSample], ["id-a"]⟩ :=
  (dedup_by_identity 5 dfSample).2 ⟨[toGoogleReview dfSample prSample], ["id-a"]⟩
    prSample [] (by decide)

/-- Every record a pass appends satisfies any property of the normalized
record shape. -/
theorem offerAll_forall (maxItems : Nat) (now : DateFields)
    (P : GoogleReview → Prop) (hP : ∀ rev, P (toGoogleReview now rev))
    (revs : List PageReview) :
    ∀ st : AccState, (∀ r ∈ st.collected, P r) →
      ∀ r ∈ (offerAll maxItems now revs st).collected, P r := by
  induction revs with
  | nil => exact fun st h => h
  | cons rev rest ih =>
    intro st h
    simp only [offerAll]
    by_cases hcap : maxItems ≤ st.collected.length
    · rw [if_pos hcap]; exact h
    · rw [if_neg hcap]
      by_cases hdup : rev.reviewId ∈ st.seen
      · rw [if_pos hdup]; exact ih st h
      · rw [if_neg hdup]
        refine ih _ fun r hr => ?_
        rcases List.mem_append.mp hr with hr | hr
        · exact h r hr
        · simp only [List.mem_singleton] at hr
          subst hr
          exact hP rev

/-- Claim C10: every record handed to the external sink carries the constant
attached fields `reviewUrl = null`, `language = "en"`, and
`reviewOrigin = "Google"`, for every input and configuration. -/
theorem constant_attached_fields (maxItems : Nat) (now : DateFields)
    (passes : List (List PageReview)) :
    ∀ r ∈ (runSession maxItems now passes).collected,
      r.reviewUrl = none ∧ r.language = "en" ∧ r.reviewOrigin = "Google" := by
  suffices h : ∀ st : AccState,
      (∀ r ∈ st.collected, r.reviewUrl = none ∧ r.language = "en" ∧ r.reviewOrigin = "Google") →
      ∀ r ∈ (passes.foldl (fun st pass => offerAll maxItems now pass st) st).collected,
        r.reviewUrl = none ∧ r.language = "en" ∧ r.reviewOrigin = "Google" by
    exact h ⟨[], []⟩ (by simp)
  induction passes with
  | nil => exact fun st h => h
  | cons p ps ih =>
    intro st h
    exact ih _ (offerAll_forall maxItems now _ (fun rev => ⟨rfl, rfl, rfl⟩) p st h)

/-- Witness for `constant_attached_fields` at a concrete one-pass session. -/
theorem constant_attached_fields_witness :
    (toGoogleReview dfSample prSample).reviewUrl = none ∧
    (toGoogleReview dfSample prSample).language = "en" ∧
    (toGoogleReview dfSample prSample).reviewOrigin = "Google" :=
  constant_attached_fields 5 dfSample [[prSample]] (toGoogleReview dfSample prSample)
    (by decide)

/-- Against a document whose count never changes, a loop entered with
`lastCount` already equal to that count stalls to the 3-count and stops with
`NoProgress`, after `3 - noNew` further measurements and one fewer scroll. -/
theorem scrollLoop_const_stall (maxItems c : Nat) (hc : c < maxItems) :
    ∀ fuel noNew attempt : Nat, noNew ≤ 2 → 3 - noNew ≤ fuel →
      scrollLoop (fun _ => c) maxItems fuel attempt c noNew =
        { reason := StopReason.noProgress, cycles := attempt + (3 - noNew),
          scrolls := attempt + (2 - noNew), lastCount := c } := by
  intro fuel
  induction fuel with
  | zero => intro noNew attempt h1 h2; exact absurd h2 (by omega)
  | succ k ih =>
    intro noNew attempt h1 h2
    simp only [scrollLoop]
    rw [if_neg (by omega : ¬ maxItems ≤ c)]
    simp only [if_true]
    by_cases h3 : 2 ≤ noNew
    · rw [if_pos h3]
      have hn : noNew = 2 := by omega
      subst hn
      rfl
    · rw [if_neg h3]
      rw [ih (noNew + 1) (attempt + 1) (by omega) (by omega)]
      simp only [ScrollResult.mk.injEq]
      exact ⟨trivial, by omega, by omega, trivial⟩

/-- Claim C5: against a document whose card count never changes (three
consecutive measurements each equal to the previous one), the pagination
loop stops with reason `NoProgress` and performs no scroll in the stopping
cycle; any measurement that differs from the previous count resets the stall
counter to zero; and the handler still runs the extraction pass over the
loaded cards whatever the pagination outcome. -/
theorem stall_three_stops (maxItems c : Nat) (hc : c < maxItems) :
    ((paginate (fun _ => c) maxItems).reason = StopReason.noProgress ∧
      (paginate (fun _ => c) maxItems).scrolls + 1 = (paginate (fun _ => c) maxItems).cycles) ∧
    (∀ (counts : Nat → Nat) (fuel attempt lastCount noNew : Nat),
      counts attempt ≠ lastCount → counts attempt < maxItems →
      scrollLoop counts maxItems (fuel + 1) attempt lastCount noNew =
        scrollLoop counts maxItems fuel (attempt + 1) (counts attempt) 0) ∧
    (∀ (now : DateFields) (pageReviews : List PageReview) (st : AccState),
      runHandlerPass (fun _ => c) maxItems now pageReviews st =
        (paginate (fun _ => c) maxItems, offerAll maxItems now pageReviews st)) := by
  have hA : 6 ≤ maxScrollAttempts maxItems := by
    simp only [maxScrollAttempts]
    omega
  refine ⟨?_, fun counts fuel attempt lastCount noNew hne hlt => ?_, fun now p st => rfl⟩
  · by_cases hc0 : c = 0
    · subst hc0
      unfold paginate
      rw [scrollLoop_const_stall maxItems 0 hc (maxScrollAttempts maxItems) 0 0
        (by omega) (by omega)]
      exact ⟨rfl, rfl⟩
    · obtain ⟨k, hk⟩ : ∃ k, maxScrollAttempts maxItems = k + 1 :=
        ⟨maxScrollAttempts maxItems - 1, by omega⟩
      have hstep : paginate (fun _ => c) maxItems = scrollLoop (fun _ => c) maxItems k 1 c 0 := by
        unfold paginate
        rw [hk]
        simp only [scrollLoop]
        rw [if_neg (by omega : ¬ maxItems ≤ c), if_neg hc0]
      rw [hstep, scrollLoop_const_stall maxItems c hc k 0 1 (by omega) (by omega)]
      exact ⟨rfl, rfl⟩
  · simp only [scrollLoop]
    rw [if_neg (by omega : ¬ maxItems ≤ counts attempt), if_neg hne]

/-- Witness for `stall_three_stops`: the spec scenario — the count stays at
8 with a cap of 100 — stops with `NoProgress`. -/
theorem stall_three_stops_witness :
    (paginate (fun _ => 8) 100).reason = StopReason.noProgress :=
  ((stall_three_stops 100 8 (by decide)).1).1

/-- Cycle count is bounded by the remaining fuel, with equality exactly when
the loop exits by fuel exhaustion. -/
theorem scrollLoop_cycles_le (counts : Nat → Nat) (maxItems : Nat) :
    ∀ fuel attempt lastCount noNew : Nat,
      (scrollLoop counts maxItems fuel attempt lastCount noNew).cycles ≤ attempt + fuel ∧
      ((scrollLoop counts maxItems fuel attempt lastCount noNew).reason =
          StopReason.iterationLimit →
        (scrollLoop counts maxItems fuel attempt lastCount noNew).cycles = attempt + fuel) := by
  intro fuel
  induction fuel with
  | zero =>
    intro attempt lastCount noNew
    exact ⟨by simp [scrollLoop], fun _ => by simp [scrollLoop]⟩
  | succ k ih =>
    intro attempt lastCount noNew
    simp only [scrollLoop]
    by_cases h1 : maxItems ≤ counts attempt
    · rw [if_pos h1]
      exact ⟨by show attempt + 1 ≤ attempt + (k + 1); omega, fun habs => nomatch habs⟩
    · rw [if_neg h1]
      by_cases h2 : counts attempt = lastCount
      · rw [if_pos h2]
        by_cases h3 : 2 ≤ noNew
        · rw [if_pos h3]
          exact ⟨by show attempt + 1 ≤ attempt + (k + 1); omega, fun habs => nomatch habs⟩
        · rw [if_neg h3]
          have h := ih (attempt + 1) (counts attempt) (noNew + 1)
          exact ⟨by omega, fun hr => by rw [h.2 hr]; omega⟩
      · rw [if_neg h2]
        have h := ih (attempt + 1) (counts attempt) 0
        exact ⟨by omega, fun hr => by rw [h.2 hr]; omega⟩

/-- Claim C6: for every document behaviour and positive cap, the pagination
controller performs at most `ceil(maxItems / 10) + 5` measure-scroll-wait
cycles — for natural numbers, `(maxItems + 9) / 10 + 5` — and an
`IterationLimit` stop happens exactly at that ceiling, terminating the loop
regardless of progress. -/
theorem iteration_ceiling (counts : Nat → Nat) (maxItems : Nat)
    (_hpos : 0 < maxItems) :
    (paginate counts maxItems).cycles ≤ (maxItems + 9) / 10 + 5 ∧
    ((paginate counts maxItems).reason = StopReason.iterationLimit →
      (paginate counts maxItems).cycles = (maxItems + 9) / 10 + 5) := by
  have h := scrollLoop_cycles_le counts maxItems (maxScrollAttempts maxItems) 0 0 0
  unfold paginate
  simpa [maxScrollAttempts] using h

/-- Witness for `iteration_ceiling`: a document that grows by one card per
cycle against a cap of 10 stays within the 6-cycle ceiling. -/
theorem iteration_ceiling_witness :
    (paginate (fun j => j) 10).cycles ≤ (10 + 9) / 10 + 5 :=
  (iteration_ceiling (fun j => j) 10 (by decide)).1
